import Mathlib

/-!
The Savage4 bit-banged I2C line driver.

A shallow embedding of `kernel/busses/i2c-savage4.c`.

* The driver keeps one global, `ioaddr`, and talks to one memory-mapped
  32-bit register at `ioaddr + REG`.  The state below holds `ioaddr`, the
  contents of the mapped window (`mem`, one 32-bit word per address) and the
  trace of every external call the driver makes, in program order.
* `readl`/`writel` are the MMIO accessors of the kernel.  They move whole words:
  a `readl` returns the word held at the address, a `writel` stores one.  This
  is what the statements about the word a setter writes back rest on.
* The input bits 3 and 4 of the register are not storage: they follow the two
  open-drain pins.  `lineLevels` puts the pin levels into the register word, and
  every statement about what a getter returns after a write goes through it.
* `ioremap_nocache` and `i2c_bit_add_bus` are kernel services; their results
  are supplied by an environment `Env` and may depend on the whole history.
-/

namespace Savage4

/-! ## Constants -/

/-- Source constant `PCI_CHIP_SAVAGE4`, `0x8A22`. -/
def PCI_CHIP_SAVAGE4 : Nat := 0x8A22
/-- Source constant `PCI_CHIP_SAVAGE2000`, `0x9102`. -/
def PCI_CHIP_SAVAGE2000 : Nat := 0x9102
/-- Source constant `REG`, `0xff20`: Serial Port 1 Register. -/
def REG : Nat := 0xff20
/-- Source constant `I2C_ENAB`, `0x00000020`. -/
def I2C_ENAB : Nat := 0x00000020
/-- Source constant `I2C_SCL_OUT`, `0x00000001`. -/
def I2C_SCL_OUT : Nat := 0x00000001
/-- Source constant `I2C_SDA_OUT`, `0x00000002`. -/
def I2C_SDA_OUT : Nat := 0x00000002
/-- Source constant `I2C_SCL_IN`, `0x00000008`. -/
def I2C_SCL_IN : Nat := 0x00000008
/-- Source constant `I2C_SDA_IN`, `0x00000010`. -/
def I2C_SDA_IN : Nat := 0x00000010

/-- Modelled from the spec: `PCI_VENDOR_ID_S3` is declared in the kernel header
`linux/pci_ids.h`, which is not among the sources; the spec only calls it
"a fixed vendor id".  The value is the one S3 holds in the PCI registry. -/
def PCI_VENDOR_ID_S3 : Nat := 0x5333
/-- Modelled from the spec: `PCI_ANY_ID` (`~0` in a 32-bit field) is the wildcard
behind "subordinate IDs wildcarded"; its kernel header is not among the sources. -/
def PCI_ANY_ID : Nat := 0xFFFFFFFF
/-- Modelled from the spec: `PCI_BASE_ADDRESS_MEM_MASK` (`~0x0fUL`, here as it acts
on the 32-bit `cadr`) keeps the "memory-space bits" of the first base-address
register; its header is not among the sources. -/
def PCI_BASE_ADDRESS_MEM_MASK : Nat := 0xFFFFFFF0
/-- Modelled from the spec: `ENODEV` is the kernel errno behind "DeviceNotFound";
its header is not among the sources. -/
def ENODEV : Int := 19

/-- Bitwise complement `~x` of a 32-bit `unsigned int`. -/
def not32 (x : Nat) : Nat := 2 ^ 32 - 1 - x % 2 ^ 32

/-! ## State, events, environment -/

/-- External calls made by the driver, in the order the C code makes them. -/
inductive Event where
  | readl (addr : Nat)
  | writel (val addr : Nat)
  | ioremap_nocache (cadr size : Nat)
  | printk_version
  | printk_using (ioaddr : Nat)
  | i2c_bit_add_bus
  deriving DecidableEq, Repr

/-- Driver state: the global `ioaddr`, the mapped memory, and the call trace. -/
structure State where
  ioaddr : Nat
  mem : Nat → Nat
  trace : List Event

/-- Kernel services whose results the driver consumes. -/
structure Env where
  /-- Result of `ioremap_nocache(cadr, size)` given the history; `0` is failure -/
  ioremap_nocache : List Event → Nat → Nat → Nat
  /-- Result of `i2c_bit_add_bus(&savage4_i2c_adapter)` given the history -/
  i2c_bit_add_bus : List Event → Int

/-- The fields of `struct pci_dev` the driver and `pci_match_device` look at. -/
structure PciDev where
  vendor : Nat
  device : Nat
  subsystem_vendor : Nat
  subsystem_device : Nat
  devclass : Nat
  resource0_start : Nat
  deriving DecidableEq, Repr

/-- Kernel type `struct pci_device_id` (fields left out of an initialiser are zero). -/
structure PciDeviceId where
  vendor : Nat
  device : Nat
  subvendor : Nat
  subdevice : Nat
  devclass : Nat
  class_mask : Nat
  deriving DecidableEq, Repr

/-- Kernel accessor `readl(addr)`: a 32-bit MMIO read. -/
def readl (addr : Nat) (s : State) : Nat × State :=
  (s.mem addr % 2 ^ 32, { s with trace := s.trace ++ [Event.readl addr] })

/-- Kernel accessor `writel(val, addr)`: a 32-bit MMIO write. -/
def writel (val addr : Nat) (s : State) : State :=
  { s with
    mem := fun a => if a = addr then val % 2 ^ 32 else s.mem a
    trace := s.trace ++ [Event.writel (val % 2 ^ 32) addr] }

/-! ## The line driver -/

/-- Source function `static void bit_savi2c_setscl(void *data, int val)`; `data` is unused. -/
def bit_savi2c_setscl (val : Int) (s : State) : State :=
  let rd := readl (s.ioaddr + REG) s
  let r := if val ≠ 0 then rd.1 ||| I2C_SCL_OUT else rd.1 &&& not32 I2C_SCL_OUT
  let s2 := writel r (rd.2.ioaddr + REG) rd.2
  (readl (s2.ioaddr + REG) s2).2

/-- Source function `static void bit_savi2c_setsda(void *data, int val)`; `data` is unused. -/
def bit_savi2c_setsda (val : Int) (s : State) : State :=
  let rd := readl (s.ioaddr + REG) s
  let r := if val ≠ 0 then rd.1 ||| I2C_SDA_OUT else rd.1 &&& not32 I2C_SDA_OUT
  let s2 := writel r (rd.2.ioaddr + REG) rd.2
  (readl (s2.ioaddr + REG) s2).2

/-- Source function `static int bit_savi2c_getscl(void *data)`; `data` is unused. -/
def bit_savi2c_getscl (s : State) : Int × State :=
  let rd := readl (s.ioaddr + REG) s
  (if 0 ≠ rd.1 &&& I2C_SCL_IN then 1 else 0, rd.2)

/-- Source function `static int bit_savi2c_getsda(void *data)`; `data` is unused. -/
def bit_savi2c_getsda (s : State) : Int × State :=
  let rd := readl (s.ioaddr + REG) s
  (if 0 ≠ rd.1 &&& I2C_SDA_IN then 1 else 0, rd.2)

/-- Source function `void config_s4(struct pci_dev *dev)`: maps the window and enables I2C. -/
def config_s4 (env : Env) (dev : PciDev) (s : State) : State :=
  let cadr := dev.resource0_start % 2 ^ 32
  let cadr := cadr &&& PCI_BASE_ADDRESS_MEM_MASK
  let s1 : State :=
    { s with
      ioaddr := env.ioremap_nocache s.trace cadr 0x0080000
      trace := s.trace ++ [Event.ioremap_nocache cadr 0x0080000] }
  if s1.ioaddr ≠ 0 then
    let s2 := writel 0x00000020 (s1.ioaddr + REG) s1
    { s2 with trace := s2.trace ++ [Event.printk_using s2.ioaddr] }
  else
    s1

/-- Source table `static struct pci_device_id savage4_ids[]`, without the zero terminator. -/
def savage4_ids : List PciDeviceId :=
  [ { vendor := PCI_VENDOR_ID_S3, device := PCI_CHIP_SAVAGE4,
      subvendor := PCI_ANY_ID, subdevice := PCI_ANY_ID, devclass := 0, class_mask := 0 },
    { vendor := PCI_VENDOR_ID_S3, device := PCI_CHIP_SAVAGE2000,
      subvendor := PCI_ANY_ID, subdevice := PCI_ANY_ID, devclass := 0, class_mask := 0 } ]

/-- Modelled from the spec: `pci_match_device` belongs to the kernel PCI core and is
not among the sources.  An entry matches when its vendor and device equal those
of the device ("exact match required") or are the wildcard, likewise for the
subordinate IDs ("subordinate IDs wildcarded"), and the class agrees under the
mask of the entry; the first matching entry is returned. -/
def pci_match_device (ids : List PciDeviceId) (dev : PciDev) : Option PciDeviceId :=
  ids.find? fun id =>
    (id.vendor == PCI_ANY_ID || id.vendor == dev.vendor) &&
    (id.device == PCI_ANY_ID || id.device == dev.device) &&
    (id.subvendor == PCI_ANY_ID || id.subvendor == dev.subsystem_vendor) &&
    (id.subdevice == PCI_ANY_ID || id.subdevice == dev.subsystem_device) &&
    ((id.devclass ^^^ dev.devclass) &&& id.class_mask == 0)

/-- Source function `static int savage4_probe(struct pci_dev *dev, const struct pci_device_id *id)`. -/
def savage4_probe (env : Env) (dev : PciDev) (_id : PciDeviceId) (s : State) : Int × State :=
  let s1 := config_s4 env dev s
  (env.i2c_bit_add_bus s1.trace, { s1 with trace := s1.trace ++ [Event.i2c_bit_add_bus] })

/-- The body of `pci_for_each_dev(dev) { ... }` in `i2c_savage4_init`, followed by
the `return -ENODEV` after the loop. -/
def i2c_savage4_init_loop (env : Env) : List PciDev → State → Int × State
  | [], s => (-ENODEV, s)
  | dev :: rest, s =>
    match pci_match_device savage4_ids dev with
    | some id =>
      let pr := savage4_probe env dev id s
      if pr.1 ≥ 0 then (0, pr.2) else i2c_savage4_init_loop env rest pr.2
    | none => i2c_savage4_init_loop env rest s

/-- Source function `static int i2c_savage4_init(void)` over the list of PCI devices of the kernel. -/
def i2c_savage4_init (env : Env) (devs : List PciDev) (s : State) : Int × State :=
  i2c_savage4_init_loop env devs { s with trace := s.trace ++ [Event.printk_version] }

/-! ## Sequences of line operations

The four entries of `sav_i2c_bit_data`, the callback table handed to the
bit-banging algorithm. -/

/-- One call through `sav_i2c_bit_data`. -/
inductive LineOp where
  | setscl (val : Int)
  | setsda (val : Int)
  | getscl
  | getsda
  deriving DecidableEq, Repr

/-- Effect of one callback on the driver state. -/
def LineOp.run : LineOp → State → State
  | .setscl val, s => bit_savi2c_setscl val s
  | .setsda val, s => bit_savi2c_setsda val s
  | .getscl, s => (bit_savi2c_getscl s).2
  | .getsda, s => (bit_savi2c_getsda s).2

/-- Effect of a sequence of callbacks, first to last. -/
def runOps : List LineOp → State → State
  | [], s => s
  | op :: ops, s => runOps ops (op.run s)

/-- The register the driver operates on: the word at `ioaddr + REG`. -/
def State.reg (s : State) : Nat := s.mem (s.ioaddr + REG)

/-- The register accesses (`readl`/`writel`) of a trace, in order. -/
def regAccesses : List Event → List Event
  | [] => []
  | Event.readl a :: t => Event.readl a :: regAccesses t
  | Event.writel v a :: t => Event.writel v a :: regAccesses t
  | _ :: t => regAccesses t

/-- Every write in the trace is immediately followed by a read of the same address. -/
def writesReadBack : List Event → Bool
  | [] => true
  | Event.writel _ a :: t =>
    (match t with
      | Event.readl b :: _ => decide (a = b)
      | _ => false) && writesReadBack t
  | _ :: t => writesReadBack t

/-- Level a callback sets the clock output to, if it is a `setscl`. -/
def LineOp.sclLevel : LineOp → Option Int
  | .setscl v => some v
  | _ => none

/-- Level a callback sets the data output to, if it is a `setsda`. -/
def LineOp.sdaLevel : LineOp → Option Int
  | .setsda v => some v
  | _ => none

/-- Level of the last `setscl` of a sequence, if any. -/
def lastScl : List LineOp → Option Int
  | [] => none
  | op :: ops =>
    match lastScl ops with
    | some v => some v
    | none => op.sclLevel

/-- Level of the last `setsda` of a sequence, if any. -/
def lastSda : List LineOp → Option Int
  | [] => none
  | op :: ops =>
    match lastSda ops with
    | some v => some v
    | none => op.sdaLevel

/-- A state whose register holds `V`, mapped at `io`, with an empty trace. -/
def stateWith (io V : Nat) : State :=
  { ioaddr := io, mem := fun _ => V, trace := [] }

/-- An environment in which mapping yields `io` and bus registration yields `r`. -/
def constEnv (io : Nat) (r : Int) : Env :=
  { ioremap_nocache := fun _ _ _ => io, i2c_bit_add_bus := fun _ => r }


/-- A Savage4 as the PCI core would list it (a sample device). -/
def savage4_dev : PciDev :=
  { vendor := 0x5333, device := 0x8A22, subsystem_vendor := 0x5333, subsystem_device := 0x8A22,
    devclass := 0x030000, resource0_start := 0xE0000000 }

/-- A Savage2000 (a sample device). -/
def savage2000_dev : PciDev :=
  { vendor := 0x5333, device := 0x9102, subsystem_vendor := 0, subsystem_device := 0,
    devclass := 0x030000, resource0_start := 0xD0000000 }

/-- A device of another vendor (a sample device). -/
def other_dev : PciDev :=
  { vendor := 0x8086, device := 0x7190, subsystem_vendor := 0, subsystem_device := 0,
    devclass := 0x060000, resource0_start := 0xF0000000 }

/-- The first entry of `savage4_ids`, the one a Savage4 matches. -/
def savage4_id : PciDeviceId :=
  { vendor := PCI_VENDOR_ID_S3, device := PCI_CHIP_SAVAGE4,
    subvendor := PCI_ANY_ID, subdevice := PCI_ANY_ID, devclass := 0, class_mask := 0 }

/-- The second entry of `savage4_ids`, the one a Savage2000 matches. -/
def savage2000_id : PciDeviceId :=
  { vendor := PCI_VENDOR_ID_S3, device := PCI_CHIP_SAVAGE2000,
    subvendor := PCI_ANY_ID, subdevice := PCI_ANY_ID, devclass := 0, class_mask := 0 }

/-- An environment in which the window of the Savage4 maps at `0x1000`, any other
window at `0x2000`, and bus registration fails (`-1`) the first time it is called
and succeeds afterwards. -/
def reattachEnv : Env :=
  { ioremap_nocache := fun _ cadr _ => if cadr = 0xE0000000 then 0x1000 else 0x2000
    i2c_bit_add_bus := fun tr => if Event.i2c_bit_add_bus ∈ tr then 0 else -1 }

/-- What the other side of the two-wire bus does: whether some other device (or a
missing pull-up) keeps the clock line, the data line, low. -/
structure Bus where
  scl_held_low : Bool
  sda_held_low : Bool
  deriving DecidableEq, Repr

/-- Modelled from the spec: the pins are hardware, not code of the driver.  They are
open-drain: an output bit of 0 "actively drives the line low", an output bit of 1
"merely releases the line", and the input bit shows "the true electrical state of
the line, which may legitimately read low even after release".  So the clock input
(bit 3) is high exactly when the clock output (bit 0) is released and nothing else
holds the clock low, and likewise the data input (bit 4) with the data output
(bit 1); the other bits of the 32-bit word `r` are kept. -/
def lineWord (ext : Bus) (r : Nat) : Nat :=
  ((r % 2 ^ 32 &&& not32 I2C_SCL_IN) &&& not32 I2C_SDA_IN)
    ||| (if decide (0 ≠ r &&& I2C_SCL_OUT) && !ext.scl_held_low then I2C_SCL_IN else 0)
    ||| (if decide (0 ≠ r &&& I2C_SDA_OUT) && !ext.sda_held_low then I2C_SDA_IN else 0)

/-- Modelled from the spec: the register at `ioaddr + REG` once the lines have taken
their level, see `lineWord`; nothing else changes and no call is made. -/
def lineLevels (ext : Bus) (s : State) : State :=
  { s with mem := fun a => if a = s.ioaddr + REG then lineWord ext (s.mem a) else s.mem a }

/-- The word a setter for bit `k` writes back. -/
def setBitTo (k : Nat) (val : Int) (r : Nat) : Nat :=
  if val ≠ 0 then r ||| 2 ^ k else r &&& not32 (2 ^ k)

/-! ## Bit-level facts -/

theorem not32_two_pow_testBit (k i : Nat) (hk : k < 32) :
    (not32 (2 ^ k)).testBit i = (decide (i < 32) && !decide (k = i)) := by
  have hlt : 2 ^ k < 2 ^ 32 := Nat.pow_lt_pow_right (by decide) hk
  have h : not32 (2 ^ k) = 2 ^ 32 - (2 ^ k + 1) := by
    unfold not32
    rw [Nat.mod_eq_of_lt hlt]
    omega
  rw [h, Nat.testBit_two_pow_sub_succ hlt, Nat.testBit_two_pow]

theorem and_two_pow_ne_zero (r k : Nat) : (0 ≠ r &&& 2 ^ k) ↔ r.testBit k = true := by
  constructor
  · intro h
    by_contra hb
    apply h
    symm
    apply Nat.eq_of_testBit_eq
    intro i
    by_cases hik : k = i
    · subst hik; simp [hb]
    · simp [Nat.testBit_two_pow, hik]
  · intro hb h0
    have := congrArg (fun n => n.testBit k) h0
    simp [hb, Nat.testBit_two_pow] at this

theorem testBit_mod32 (V i : Nat) (hV : V < 2 ^ 32) : (32 ≤ i) → V.testBit i = false := by
  intro hi
  exact Nat.testBit_lt_two_pow (lt_of_lt_of_le hV (Nat.pow_le_pow_right (by decide) hi))

/-- Bits of `r | 2^k`. -/
theorem set_testBit (r k i : Nat) :
    (r ||| 2 ^ k).testBit i = (decide (k = i) || r.testBit i) := by
  rw [Nat.testBit_or, Nat.testBit_two_pow, Bool.or_comm]

/-- Bits of `r & ~2^k` for a 32-bit `r`. -/
theorem clear_testBit (r k i : Nat) (hk : k < 32) (hr : r < 2 ^ 32) :
    (r &&& not32 (2 ^ k)).testBit i = (!decide (k = i) && r.testBit i) := by
  rw [Nat.testBit_and, not32_two_pow_testBit k i hk]
  by_cases hi : i < 32
  · simp [hi, Bool.and_comm]
  · rw [testBit_mod32 r i hr (by omega)]; simp

theorem setBitTo_lt (k : Nat) (val : Int) (r : Nat) (hk : k < 32) (hr : r < 2 ^ 32) :
    setBitTo k val r < 2 ^ 32 := by
  unfold setBitTo
  split
  · exact Nat.or_lt_two_pow hr (Nat.pow_lt_pow_right (by decide) hk)
  · exact lt_of_le_of_lt Nat.and_le_left hr

theorem setBitTo_testBit (k : Nat) (val : Int) (r i : Nat) (hk : k < 32) (hr : r < 2 ^ 32) :
    (setBitTo k val r).testBit i = if i = k then decide (val ≠ 0) else r.testBit i := by
  unfold setBitTo
  by_cases hv : val ≠ 0
  · rw [if_pos hv, set_testBit]
    by_cases hik : i = k
    · simp [hik, hv]
    · have : ¬ k = i := fun h => hik h.symm
      simp [hik, this]
  · rw [if_neg hv, clear_testBit r k i hk hr]
    by_cases hik : i = k
    · simp [hik, hv]
    · have : ¬ k = i := fun h => hik h.symm
      simp [hik, this]

/-! ## What each operation does to the state -/

theorem setscl_ioaddr (val : Int) (s : State) : (bit_savi2c_setscl val s).ioaddr = s.ioaddr := rfl

theorem setsda_ioaddr (val : Int) (s : State) : (bit_savi2c_setsda val s).ioaddr = s.ioaddr := rfl

theorem setscl_reg (val : Int) (s : State) :
    (bit_savi2c_setscl val s).reg = setBitTo 0 val (s.reg % 2 ^ 32) % 2 ^ 32 := by
  simp [bit_savi2c_setscl, State.reg, readl, writel, setBitTo, I2C_SCL_OUT]

theorem setsda_reg (val : Int) (s : State) :
    (bit_savi2c_setsda val s).reg = setBitTo 1 val (s.reg % 2 ^ 32) % 2 ^ 32 := by
  simp [bit_savi2c_setsda, State.reg, readl, writel, setBitTo, I2C_SDA_OUT]

theorem setscl_reg_of_lt (val : Int) (s : State) (h : s.reg < 2 ^ 32) :
    (bit_savi2c_setscl val s).reg = setBitTo 0 val s.reg := by
  rw [setscl_reg, Nat.mod_eq_of_lt h, Nat.mod_eq_of_lt (setBitTo_lt 0 val _ (by decide) h)]

theorem setsda_reg_of_lt (val : Int) (s : State) (h : s.reg < 2 ^ 32) :
    (bit_savi2c_setsda val s).reg = setBitTo 1 val s.reg := by
  rw [setsda_reg, Nat.mod_eq_of_lt h, Nat.mod_eq_of_lt (setBitTo_lt 1 val _ (by decide) h)]

theorem setscl_mem_other (val : Int) (s : State) (a : Nat) (ha : a ≠ s.ioaddr + REG) :
    (bit_savi2c_setscl val s).mem a = s.mem a := by
  simp [bit_savi2c_setscl, readl, writel, ha]

theorem setsda_mem_other (val : Int) (s : State) (a : Nat) (ha : a ≠ s.ioaddr + REG) :
    (bit_savi2c_setsda val s).mem a = s.mem a := by
  simp [bit_savi2c_setsda, readl, writel, ha]

theorem getscl_val (s : State) :
    (bit_savi2c_getscl s).1 = if s.reg.testBit 3 then 1 else 0 := by
  have h := and_two_pow_ne_zero (s.reg % 2 ^ 32) 3
  rw [Nat.testBit_mod_two_pow] at h
  simp only [bit_savi2c_getscl, readl, I2C_SCL_IN, State.reg] at h ⊢
  by_cases hb : (s.mem (s.ioaddr + REG)).testBit 3 = true
  · have h1 := h.mpr (by simp [hb])
    rw [if_pos hb]
    exact if_pos h1
  · have h1 : ¬ (0 ≠ s.mem (s.ioaddr + REG) % 2 ^ 32 &&& 2 ^ 3) := fun h2 => hb (by simpa using h.mp h2)
    rw [if_neg hb]
    exact if_neg h1

theorem getsda_val (s : State) :
    (bit_savi2c_getsda s).1 = if s.reg.testBit 4 then 1 else 0 := by
  have h := and_two_pow_ne_zero (s.reg % 2 ^ 32) 4
  rw [Nat.testBit_mod_two_pow] at h
  simp only [bit_savi2c_getsda, readl, I2C_SDA_IN, State.reg] at h ⊢
  by_cases hb : (s.mem (s.ioaddr + REG)).testBit 4 = true
  · have h1 := h.mpr (by simp [hb])
    rw [if_pos hb]
    exact if_pos h1
  · have h1 : ¬ (0 ≠ s.mem (s.ioaddr + REG) % 2 ^ 32 &&& 2 ^ 4) := fun h2 => hb (by simpa using h.mp h2)
    rw [if_neg hb]
    exact if_neg h1

theorem getscl_mem (s : State) : (bit_savi2c_getscl s).2.mem = s.mem := rfl
theorem getscl_ioaddr (s : State) : (bit_savi2c_getscl s).2.ioaddr = s.ioaddr := rfl
theorem getsda_mem (s : State) : (bit_savi2c_getsda s).2.mem = s.mem := rfl
theorem getsda_ioaddr (s : State) : (bit_savi2c_getsda s).2.ioaddr = s.ioaddr := rfl

theorem setBitTo_mod_testBit (k : Nat) (val : Int) (V i : Nat) (hk : k < 32) (hi : i < 32) :
    (setBitTo k val (V % 2 ^ 32) % 2 ^ 32).testBit i =
      if i = k then decide (val ≠ 0) else V.testBit i := by
  have hlt : V % 2 ^ 32 < 2 ^ 32 := Nat.mod_lt _ (by decide)
  rw [Nat.mod_eq_of_lt (setBitTo_lt k val _ hk hlt), setBitTo_testBit k val _ i hk hlt,
    Nat.testBit_mod_two_pow]
  simp [hi]

theorem setscl_testBit (val : Int) (s : State) (i : Nat) (hi : i < 32) :
    (bit_savi2c_setscl val s).reg.testBit i =
      if i = 0 then decide (val ≠ 0) else s.reg.testBit i := by
  rw [setscl_reg]; exact setBitTo_mod_testBit 0 val _ i (by decide) hi

theorem setsda_testBit (val : Int) (s : State) (i : Nat) (hi : i < 32) :
    (bit_savi2c_setsda val s).reg.testBit i =
      if i = 1 then decide (val ≠ 0) else s.reg.testBit i := by
  rw [setsda_reg]; exact setBitTo_mod_testBit 1 val _ i (by decide) hi

theorem getscl_reg (s : State) : (bit_savi2c_getscl s).2.reg = s.reg := rfl
theorem getsda_reg (s : State) : (bit_savi2c_getsda s).2.reg = s.reg := rfl

/-- Bits of the register after one callback, for a bit position below 32. -/
theorem run_testBit (op : LineOp) (s : State) (i : Nat) (hi : i < 32) :
    (op.run s).reg.testBit i =
      match op with
      | .setscl v => if i = 0 then decide (v ≠ 0) else s.reg.testBit i
      | .setsda v => if i = 1 then decide (v ≠ 0) else s.reg.testBit i
      | _ => s.reg.testBit i := by
  cases op with
  | setscl v => exact setscl_testBit v s i hi
  | setsda v => exact setsda_testBit v s i hi
  | getscl => rfl
  | getsda => rfl

theorem run_reg_lt (op : LineOp) (s : State) (h : s.reg < 2 ^ 32) : (op.run s).reg < 2 ^ 32 := by
  cases op with
  | setscl v =>
    show (bit_savi2c_setscl v s).reg < 2 ^ 32
    rw [setscl_reg]; exact Nat.mod_lt _ (by decide)
  | setsda v =>
    show (bit_savi2c_setsda v s).reg < 2 ^ 32
    rw [setsda_reg]; exact Nat.mod_lt _ (by decide)
  | getscl => exact h
  | getsda => exact h

theorem run_ioaddr (op : LineOp) (s : State) : (op.run s).ioaddr = s.ioaddr := by
  cases op <;> rfl

theorem runOps_append (xs ys : List LineOp) (s : State) :
    runOps (xs ++ ys) s = runOps ys (runOps xs s) := by
  induction xs generalizing s with
  | nil => rfl
  | cons x xs ih => exact ih (x.run s)

theorem runOps_reg_lt (ops : List LineOp) (s : State) (h : s.reg < 2 ^ 32) :
    (runOps ops s).reg < 2 ^ 32 := by
  induction ops generalizing s with
  | nil => exact h
  | cons x xs ih => exact ih (x.run s) (run_reg_lt x s h)

/-- No callback changes a bit of the register other than the two output bits. -/
theorem runOps_testBit_frame (ops : List LineOp) (s : State) (i : Nat)
    (hi : i < 32) (h0 : i ≠ 0) (h1 : i ≠ 1) :
    (runOps ops s).reg.testBit i = s.reg.testBit i := by
  induction ops generalizing s with
  | nil => rfl
  | cons x xs ih =>
    show (runOps xs (x.run s)).reg.testBit i = _
    rw [ih (x.run s), run_testBit x s i hi]
    cases x <;> simp [h0, h1]

/-! ## Attach: what `config_s4` does -/

theorem config_s4_ioaddr (env : Env) (dev : PciDev) (s : State) :
    (config_s4 env dev s).ioaddr =
      env.ioremap_nocache s.trace
        (dev.resource0_start % 2 ^ 32 &&& PCI_BASE_ADDRESS_MEM_MASK) 0x0080000 := by
  unfold config_s4
  dsimp only
  split <;> rfl

theorem config_s4_ok (env : Env) (dev : PciDev) (s : State)
    (h : (config_s4 env dev s).ioaddr ≠ 0) :
    (config_s4 env dev s).mem =
      (fun a => if a = (config_s4 env dev s).ioaddr + REG then 0x20 else s.mem a) ∧
    (config_s4 env dev s).trace = s.trace ++
      [Event.ioremap_nocache (dev.resource0_start % 2 ^ 32 &&& PCI_BASE_ADDRESS_MEM_MASK) 0x0080000,
       Event.writel 0x20 ((config_s4 env dev s).ioaddr + REG),
       Event.printk_using (config_s4 env dev s).ioaddr] := by
  rw [config_s4_ioaddr] at h ⊢
  unfold config_s4
  dsimp only
  rw [if_pos h]
  simp [writel]

theorem config_s4_fail (env : Env) (dev : PciDev) (s : State)
    (h : (config_s4 env dev s).ioaddr = 0) :
    (config_s4 env dev s).mem = s.mem ∧
    (config_s4 env dev s).trace = s.trace ++
      [Event.ioremap_nocache (dev.resource0_start % 2 ^ 32 &&& PCI_BASE_ADDRESS_MEM_MASK) 0x0080000] := by
  rw [config_s4_ioaddr] at h
  unfold config_s4
  dsimp only
  rw [if_neg (by simpa using h)]
  simp

theorem config_s4_reg (env : Env) (dev : PciDev) (s : State)
    (h : (config_s4 env dev s).ioaddr ≠ 0) : (config_s4 env dev s).reg = 0x20 := by
  have hm := (config_s4_ok env dev s h).1
  unfold State.reg
  rw [hm]
  simp

theorem setscl_trace (val : Int) (s : State) :
    (bit_savi2c_setscl val s).trace = s.trace ++
      [Event.readl (s.ioaddr + REG),
       Event.writel (setBitTo 0 val (s.reg % 2 ^ 32) % 2 ^ 32) (s.ioaddr + REG),
       Event.readl (s.ioaddr + REG)] := by
  simp [bit_savi2c_setscl, State.reg, readl, writel, setBitTo, I2C_SCL_OUT]

theorem setsda_trace (val : Int) (s : State) :
    (bit_savi2c_setsda val s).trace = s.trace ++
      [Event.readl (s.ioaddr + REG),
       Event.writel (setBitTo 1 val (s.reg % 2 ^ 32) % 2 ^ 32) (s.ioaddr + REG),
       Event.readl (s.ioaddr + REG)] := by
  simp [bit_savi2c_setsda, State.reg, readl, writel, setBitTo, I2C_SDA_OUT]

/-- Bit 0 after a sequence: the level of the last `setscl`, else the old bit. -/
theorem runOps_testBit_zero (ops : List LineOp) (s : State) :
    (runOps ops s).reg.testBit 0 =
      match lastScl ops with
      | some v => decide (v ≠ 0)
      | none => s.reg.testBit 0 := by
  induction ops generalizing s with
  | nil => rfl
  | cons x xs ih =>
    show (runOps xs (x.run s)).reg.testBit 0 = _
    rw [ih (x.run s)]
    simp only [lastScl]
    cases hl : lastScl xs with
    | some v => rfl
    | none =>
      dsimp only
      rw [run_testBit x s 0 (by decide)]
      cases x <;> simp [LineOp.sclLevel]

/-- Bit 1 after a sequence: the level of the last `setsda`, else the old bit. -/
theorem runOps_testBit_one (ops : List LineOp) (s : State) :
    (runOps ops s).reg.testBit 1 =
      match lastSda ops with
      | some v => decide (v ≠ 0)
      | none => s.reg.testBit 1 := by
  induction ops generalizing s with
  | nil => rfl
  | cons x xs ih =>
    show (runOps xs (x.run s)).reg.testBit 1 = _
    rw [ih (x.run s)]
    simp only [lastSda]
    cases hl : lastSda xs with
    | some v => rfl
    | none =>
      dsimp only
      rw [run_testBit x s 1 (by decide)]
      cases x <;> simp [LineOp.sdaLevel]

/-! ## Discovery: the loop of `i2c_savage4_init` -/

theorem pci_match_device_savage4_ids (d : PciDev) :
    (pci_match_device savage4_ids d).isSome = true ↔
      d.vendor = PCI_VENDOR_ID_S3 ∧
        (d.device = PCI_CHIP_SAVAGE4 ∨ d.device = PCI_CHIP_SAVAGE2000) := by
  simp only [pci_match_device, savage4_ids, List.find?_isSome, List.mem_cons,
    List.mem_singleton, List.not_mem_nil, or_false, exists_eq_or_imp, exists_eq_left,
    PCI_VENDOR_ID_S3, PCI_ANY_ID, PCI_CHIP_SAVAGE4, PCI_CHIP_SAVAGE2000]
  simp
  constructor
  · rintro (⟨h1, h2⟩ | ⟨h1, h2⟩)
    · exact ⟨h1.symm, Or.inl h2.symm⟩
    · exact ⟨h1.symm, Or.inr h2.symm⟩
  · rintro ⟨h1, h2 | h2⟩
    · exact Or.inl ⟨h1.symm, h2.symm⟩
    · exact Or.inr ⟨h1.symm, h2.symm⟩

theorem loop_nil (env : Env) (s : State) :
    i2c_savage4_init_loop env [] s = (-ENODEV, s) := rfl

theorem loop_cons_none (env : Env) (d : PciDev) (ds : List PciDev) (s : State)
    (h : pci_match_device savage4_ids d = none) :
    i2c_savage4_init_loop env (d :: ds) s = i2c_savage4_init_loop env ds s := by
  simp only [i2c_savage4_init_loop, h]

theorem loop_cons_ok (env : Env) (d : PciDev) (ds : List PciDev) (s : State) (id : PciDeviceId)
    (h : pci_match_device savage4_ids d = some id) (hp : 0 ≤ (savage4_probe env d id s).1) :
    i2c_savage4_init_loop env (d :: ds) s = (0, (savage4_probe env d id s).2) := by
  simp only [i2c_savage4_init_loop, h]
  rw [if_pos hp]

theorem loop_cons_fail (env : Env) (d : PciDev) (ds : List PciDev) (s : State) (id : PciDeviceId)
    (h : pci_match_device savage4_ids d = some id) (hp : ¬ 0 ≤ (savage4_probe env d id s).1) :
    i2c_savage4_init_loop env (d :: ds) s =
      i2c_savage4_init_loop env ds (savage4_probe env d id s).2 := by
  simp only [i2c_savage4_init_loop, h]
  rw [if_neg hp]

theorem ENODEV_ne : (0 : Int) ≠ -ENODEV := by decide

theorem loop_dichotomy (env : Env) (devs : List PciDev) (s : State) :
    (i2c_savage4_init_loop env devs s).1 = 0 ∨ (i2c_savage4_init_loop env devs s).1 = -ENODEV := by
  induction devs generalizing s with
  | nil => exact Or.inr rfl
  | cons d ds ih =>
    cases hm : pci_match_device savage4_ids d with
    | none => rw [loop_cons_none env d ds s hm]; exact ih s
    | some id =>
      by_cases hp : 0 ≤ (savage4_probe env d id s).1
      · rw [loop_cons_ok env d ds s id hm hp]; exact Or.inl rfl
      · rw [loop_cons_fail env d ds s id hm hp]; exact ih _

/-- When no device of `pre` is attached, the loop goes on with the rest. -/
theorem loop_append_of_fail (env : Env) (pre rest : List PciDev) (s : State)
    (h : (i2c_savage4_init_loop env pre s).1 = -ENODEV) :
    i2c_savage4_init_loop env (pre ++ rest) s =
      i2c_savage4_init_loop env rest (i2c_savage4_init_loop env pre s).2 := by
  induction pre generalizing s with
  | nil => rfl
  | cons d ds ih =>
    cases hm : pci_match_device savage4_ids d with
    | none =>
      rw [loop_cons_none env d ds s hm] at h ⊢
      rw [List.cons_append, loop_cons_none env d _ s hm]
      exact ih s h
    | some id =>
      by_cases hp : 0 ≤ (savage4_probe env d id s).1
      · rw [loop_cons_ok env d ds s id hm hp] at h
        exact absurd h ENODEV_ne
      · rw [loop_cons_fail env d ds s id hm hp] at h ⊢
        rw [List.cons_append, loop_cons_fail env d _ s id hm hp]
        exact ih _ h

/-- A zero result comes from the first matching device whose probe succeeds. -/
theorem loop_zero_split (env : Env) (devs : List PciDev) (s : State)
    (h : (i2c_savage4_init_loop env devs s).1 = 0) :
    ∃ pre d post id, devs = pre ++ d :: post ∧
      pci_match_device savage4_ids d = some id ∧
      (i2c_savage4_init_loop env pre s).1 = -ENODEV ∧
      0 ≤ (savage4_probe env d id (i2c_savage4_init_loop env pre s).2).1 ∧
      (i2c_savage4_init_loop env devs s).2 =
        (savage4_probe env d id (i2c_savage4_init_loop env pre s).2).2 := by
  induction devs generalizing s with
  | nil => exact absurd h.symm ENODEV_ne
  | cons d ds ih =>
    cases hm : pci_match_device savage4_ids d with
    | none =>
      rw [loop_cons_none env d ds s hm] at h ⊢
      obtain ⟨pre, e, post, id, h1, h2, h3, h4, h5⟩ := ih s h
      refine ⟨d :: pre, e, post, id, by rw [h1]; rfl, h2, ?_, ?_, ?_⟩
      · rw [loop_cons_none env d pre s hm]; exact h3
      · rw [loop_cons_none env d pre s hm]; exact h4
      · rw [loop_cons_none env d pre s hm]; exact h5
    | some id =>
      by_cases hp : 0 ≤ (savage4_probe env d id s).1
      · refine ⟨[], d, ds, id, rfl, hm, rfl, hp, ?_⟩
        rw [loop_cons_ok env d ds s id hm hp]
        rfl
      · rw [loop_cons_fail env d ds s id hm hp] at h ⊢
        obtain ⟨pre, e, post, id2, h1, h2, h3, h4, h5⟩ := ih _ h
        refine ⟨d :: pre, e, post, id2, by rw [h1]; rfl, h2, ?_, ?_, ?_⟩
        · rw [loop_cons_fail env d pre s id hm hp]; exact h3
        · rw [loop_cons_fail env d pre s id hm hp]; exact h4
        · rw [loop_cons_fail env d pre s id hm hp]; exact h5

theorem loop_no_match (env : Env) (devs : List PciDev) (s : State)
    (h : ∀ d ∈ devs, pci_match_device savage4_ids d = none) :
    i2c_savage4_init_loop env devs s = (-ENODEV, s) := by
  induction devs with
  | nil => rfl
  | cons d ds ih =>
    rw [loop_cons_none env d ds s (h d (List.mem_cons_self d ds))]
    exact ih fun e he => h e (List.mem_cons_of_mem d he)

/-! ## The line setters and getters -/

/-- C1: read-modify-write fidelity of the line setters.  For every 32-bit register
value and every level `val`, after `bit_savi2c_setscl val` the register is again a
32-bit value whose bit 0 is set exactly when `val` is non-zero and whose other bits
are those of the old value; after `bit_savi2c_setsda val` the same holds with bit 1.
Neither setter moves `ioaddr` or changes any other word of the window. -/
theorem setters_read_modify_write (s : State) (val : Int) (hV : s.reg < 2 ^ 32) :
    ((bit_savi2c_setscl val s).reg < 2 ^ 32 ∧
      (∀ i, (bit_savi2c_setscl val s).reg.testBit i =
        if i = 0 then decide (val ≠ 0) else s.reg.testBit i) ∧
      (bit_savi2c_setscl val s).ioaddr = s.ioaddr ∧
      (∀ a, a ≠ s.ioaddr + REG → (bit_savi2c_setscl val s).mem a = s.mem a)) ∧
    ((bit_savi2c_setsda val s).reg < 2 ^ 32 ∧
      (∀ i, (bit_savi2c_setsda val s).reg.testBit i =
        if i = 1 then decide (val ≠ 0) else s.reg.testBit i) ∧
      (bit_savi2c_setsda val s).ioaddr = s.ioaddr ∧
      (∀ a, a ≠ s.ioaddr + REG → (bit_savi2c_setsda val s).mem a = s.mem a)) := by
  refine ⟨⟨?_, ?_, rfl, setscl_mem_other val s⟩, ⟨?_, ?_, rfl, setsda_mem_other val s⟩⟩
  · rw [setscl_reg_of_lt val s hV]; exact setBitTo_lt 0 val _ (by decide) hV
  · intro i; rw [setscl_reg_of_lt val s hV]; exact setBitTo_testBit 0 val _ i (by decide) hV
  · rw [setsda_reg_of_lt val s hV]; exact setBitTo_lt 1 val _ (by decide) hV
  · intro i; rw [setsda_reg_of_lt val s hV]; exact setBitTo_testBit 1 val _ i (by decide) hV

/-- C1 at the register value `0x2C` of the spec: clearing the clock output of `0x2C`
leaves `0x2C`. -/
theorem setters_read_modify_write_witness :
    (stateWith 0x1000 0x2C).reg < 2 ^ 32 ∧
    (bit_savi2c_setscl 0 (stateWith 0x1000 0x2C)).reg = 0x2C ∧
    (bit_savi2c_setscl 0 (stateWith 0x1000 0x2C)).reg.testBit 0 = false ∧
    (bit_savi2c_setscl 0 (stateWith 0x1000 0x2C)).reg.testBit 3
      = (stateWith 0x1000 0x2C).reg.testBit 3 :=
  ⟨by decide, by decide,
    by simpa using (setters_read_modify_write (stateWith 0x1000 0x2C) 0 (by decide)).1.2.1 0,
    by simpa using (setters_read_modify_write (stateWith 0x1000 0x2C) 0 (by decide)).1.2.1 3⟩

/-- C2: the line getters read the input bits.  `bit_savi2c_getscl` returns 1 when
bit 3 of the register is set and 0 otherwise, `bit_savi2c_getsda` does the same with
bit 4; the result is 0 or 1, two register values that agree on that bit give the
same result whatever their other bits, and the getters change neither the window
nor `ioaddr`. -/
theorem getters_read_input_bits (s : State) :
    (bit_savi2c_getscl s).1 = (if s.reg.testBit 3 then 1 else 0) ∧
    (bit_savi2c_getsda s).1 = (if s.reg.testBit 4 then 1 else 0) ∧
    ((bit_savi2c_getscl s).1 = 0 ∨ (bit_savi2c_getscl s).1 = 1) ∧
    ((bit_savi2c_getsda s).1 = 0 ∨ (bit_savi2c_getsda s).1 = 1) ∧
    (∀ t : State, t.reg.testBit 3 = s.reg.testBit 3 →
      (bit_savi2c_getscl t).1 = (bit_savi2c_getscl s).1) ∧
    (∀ t : State, t.reg.testBit 4 = s.reg.testBit 4 →
      (bit_savi2c_getsda t).1 = (bit_savi2c_getsda s).1) ∧
    (bit_savi2c_getscl s).2.mem = s.mem ∧ (bit_savi2c_getscl s).2.ioaddr = s.ioaddr ∧
    (bit_savi2c_getsda s).2.mem = s.mem ∧ (bit_savi2c_getsda s).2.ioaddr = s.ioaddr := by
  refine ⟨getscl_val s, getsda_val s, ?_, ?_, ?_, ?_, rfl, rfl, rfl, rfl⟩
  · rw [getscl_val]; split <;> simp
  · rw [getsda_val]; split <;> simp
  · intro t ht; rw [getscl_val, getscl_val, ht]
  · intro t ht; rw [getsda_val, getsda_val, ht]

/-- C2 at concrete registers: `0x0B` and `0x08` agree on bit 3 and differ on the
output bits 0 and 1; the clock getter returns 1 on both. -/
theorem getters_read_input_bits_witness :
    (stateWith 0x1000 0x0B).reg.testBit 3 = (stateWith 0x1000 0x08).reg.testBit 3 ∧
    (bit_savi2c_getscl (stateWith 0x1000 0x0B)).1 = (bit_savi2c_getscl (stateWith 0x1000 0x08)).1 ∧
    (bit_savi2c_getscl (stateWith 0x1000 0x08)).1 = 1 :=
  ⟨by decide,
    (getters_read_input_bits (stateWith 0x1000 0x08)).2.2.2.2.1 (stateWith 0x1000 0x0B) (by decide),
    by decide⟩

/-! ## Attach and the enable bit -/

/-- C3, as the code has it: the enable write made at attach stores the constant
`0x20`.  For every prior state, after `config_s4` with a successful (non-zero)
mapping the register equals `0x20`: bit 5 is set and every other bit is cleared,
whatever the register held before; the other words of the window are unchanged.
The setter writes, in contrast, keep every bit below 32 that they do not target. -/
theorem config_s4_writes_enable_word (env : Env) (dev : PciDev) (s : State)
    (h : (config_s4 env dev s).ioaddr ≠ 0) :
    (config_s4 env dev s).reg = 0x20 ∧
    (∀ i, (config_s4 env dev s).reg.testBit i = decide (i = 5)) ∧
    (∀ a, a ≠ (config_s4 env dev s).ioaddr + REG → (config_s4 env dev s).mem a = s.mem a) ∧
    (∀ (t : State) (val : Int) (i : Nat), i < 32 →
      (i ≠ 0 → (bit_savi2c_setscl val t).reg.testBit i = t.reg.testBit i) ∧
      (i ≠ 1 → (bit_savi2c_setsda val t).reg.testBit i = t.reg.testBit i)) := by
  refine ⟨config_s4_reg env dev s h, ?_, ?_, ?_⟩
  · intro i
    rw [config_s4_reg env dev s h]
    have : (0x20 : Nat) = 2 ^ 5 := by decide
    rw [this, Nat.testBit_two_pow]
    by_cases hi : i = 5
    · simp [hi]
    · have : ¬ 5 = i := fun e => hi e.symm
      simp [hi, this]
  · intro a ha
    rw [(config_s4_ok env dev s h).1]
    simp [ha]
  · intro t val i hi
    exact ⟨fun h0 => by rw [setscl_testBit val t i hi, if_neg h0],
      fun h1 => by rw [setsda_testBit val t i hi, if_neg h1]⟩

/-- C3 amended, at a concrete attach: a register holding `0x0D` holds `0x20` afterwards. -/
theorem config_s4_writes_enable_word_witness :
    (config_s4 (constEnv 0x1000 0) savage4_dev (stateWith 0 0x0D)).ioaddr ≠ 0 ∧
    (config_s4 (constEnv 0x1000 0) savage4_dev (stateWith 0 0x0D)).reg = 0x20 :=
  ⟨by decide,
    (config_s4_writes_enable_word (constEnv 0x1000 0) savage4_dev (stateWith 0 0x0D)
      (by decide)).1⟩

/-- C3 as stated fails: with the register holding `0x01` before a successful attach,
`config_s4` leaves `0x20`, not `0x01 | 0x20 = 0x21`; bit 0 of the old value is lost. -/
theorem config_s4_preserves_bits_counterexample :
    (config_s4 (constEnv 0x1000 0) savage4_dev (stateWith 0 0x01)).ioaddr = 0x1000 ∧
    (stateWith 0 0x01).mem (0x1000 + REG) = 0x01 ∧
    (config_s4 (constEnv 0x1000 0) savage4_dev (stateWith 0 0x01)).reg = 0x20 ∧
    (config_s4 (constEnv 0x1000 0) savage4_dev (stateWith 0 0x01)).reg ≠ 0x01 ||| 0x20 ∧
    (config_s4 (constEnv 0x1000 0) savage4_dev (stateWith 0 0x01)).reg.testBit 0
      ≠ ((stateWith 0 0x01).mem (0x1000 + REG)).testBit 0 := by
  decide

/-- C6: the enable bit is set at attach and stays set.  After `config_s4` with a
successful mapping bit 5 of the register is set, and it is still set after every
call of every finite sequence of setter and getter callbacks that follows; no
callback changes bit 5 of the register in any state. -/
theorem enable_bit_stays_set (env : Env) (dev : PciDev) (s : State)
    (h : (config_s4 env dev s).ioaddr ≠ 0) (ops : List LineOp) :
    (config_s4 env dev s).reg.testBit 5 = true ∧
    (∀ n, (runOps (ops.take n) (config_s4 env dev s)).reg.testBit 5 = true) ∧
    (∀ (op : LineOp) (t : State), (op.run t).reg.testBit 5 = t.reg.testBit 5) := by
  have h5 : (config_s4 env dev s).reg.testBit 5 = true := by
    rw [config_s4_reg env dev s h]; decide
  refine ⟨h5, ?_, ?_⟩
  · intro n
    rw [runOps_testBit_frame _ _ 5 (by decide) (by decide) (by decide)]
    exact h5
  · intro op t
    rw [run_testBit op t 5 (by decide)]
    cases op <;> simp

/-- C6 on a concrete run: attach, then drive clock low, data low, read both, release both. -/
theorem enable_bit_stays_set_witness :
    (config_s4 (constEnv 0x1000 0) savage4_dev (stateWith 0 0x1F)).ioaddr ≠ 0 ∧
    (runOps [.setscl 0, .setsda 0, .getscl, .getsda, .setsda 1, .setscl 1]
      (config_s4 (constEnv 0x1000 0) savage4_dev (stateWith 0 0x1F))).reg.testBit 5 = true :=
  ⟨by decide,
    (enable_bit_stays_set (constEnv 0x1000 0) savage4_dev (stateWith 0 0x1F) (by decide)
      [.setscl 0, .setsda 0, .getscl, .getsda, .setsda 1, .setscl 1]).2.1 6⟩

/-! ## Register access traces -/

/-- C7, as the code has it: each setter makes exactly the accesses read, write, read
of the register at `ioaddr + REG`, so its write is immediately read back; the
attach-time `config_s4` makes exactly one register access when the mapping succeeds,
the write of `0x20`, with no read before or after it, and none when the mapping
fails. -/
theorem setters_read_back_config_s4_does_not (env : Env) (dev : PciDev) (s : State) (val : Int) :
    (bit_savi2c_setscl val s).trace = s.trace ++
      [Event.readl (s.ioaddr + REG),
       Event.writel (setBitTo 0 val (s.reg % 2 ^ 32) % 2 ^ 32) (s.ioaddr + REG),
       Event.readl (s.ioaddr + REG)] ∧
    (bit_savi2c_setsda val s).trace = s.trace ++
      [Event.readl (s.ioaddr + REG),
       Event.writel (setBitTo 1 val (s.reg % 2 ^ 32) % 2 ^ 32) (s.ioaddr + REG),
       Event.readl (s.ioaddr + REG)] ∧
    (∀ v a, writesReadBack [Event.readl a, Event.writel v a, Event.readl a] = true) ∧
    ((config_s4 env dev s).ioaddr ≠ 0 →
      ∃ evs, (config_s4 env dev s).trace = s.trace ++ evs ∧
        regAccesses evs = [Event.writel 0x20 ((config_s4 env dev s).ioaddr + REG)] ∧
        writesReadBack (regAccesses evs) = false) ∧
    ((config_s4 env dev s).ioaddr = 0 →
      ∃ evs, (config_s4 env dev s).trace = s.trace ++ evs ∧ regAccesses evs = []) := by
  refine ⟨setscl_trace val s, setsda_trace val s, ?_, ?_, ?_⟩
  · intro v a; simp [writesReadBack]
  · intro h
    exact ⟨_, (config_s4_ok env dev s h).2, rfl, rfl⟩
  · intro h
    exact ⟨_, (config_s4_fail env dev s h).2, rfl⟩

/-- C7 amended, at a concrete attach and a concrete setter call. -/
theorem setters_read_back_config_s4_does_not_witness :
    (config_s4 (constEnv 0x1000 0) savage4_dev (stateWith 0 0)).ioaddr ≠ 0 ∧
    (∃ evs, (config_s4 (constEnv 0x1000 0) savage4_dev (stateWith 0 0)).trace
        = (stateWith 0 0).trace ++ evs ∧
      regAccesses evs = [Event.writel 0x20
        ((config_s4 (constEnv 0x1000 0) savage4_dev (stateWith 0 0)).ioaddr + REG)] ∧
      writesReadBack (regAccesses evs) = false) :=
  ⟨by decide,
    (setters_read_back_config_s4_does_not (constEnv 0x1000 0) savage4_dev (stateWith 0 0) 0).2.2.2.1
      (by decide)⟩

/-- C7 as stated fails for `config_s4`: after a successful mapping its only register
access is the write of `0x20` to `ioaddr + REG`; no read follows before it returns. -/
theorem config_s4_read_back_counterexample :
    regAccesses (config_s4 (constEnv 0x1000 0) savage4_dev (stateWith 0 0)).trace
      = [Event.writel 0x20 (0x1000 + REG)] ∧
    writesReadBack
      (regAccesses (config_s4 (constEnv 0x1000 0) savage4_dev (stateWith 0 0)).trace) = false := by
  decide

/-! ## Inputs follow the lines -/

theorem decide_and_two_pow (r k : Nat) : decide (0 ≠ r &&& 2 ^ k) = r.testBit k := by
  cases h : r.testBit k
  · apply decide_eq_false
    intro hne
    have := (and_two_pow_ne_zero r k).mp hne
    rw [h] at this
    cases this
  · exact decide_eq_true ((and_two_pow_ne_zero r k).mpr h)

theorem testBit_ite_two_pow (c : Bool) (k i : Nat) :
    (if c = true then 2 ^ k else 0 : Nat).testBit i = (c && decide (k = i)) := by
  cases c
  · simp
  · simp [Nat.testBit_two_pow]

/-- Bits of the register word once the inputs show the line levels. -/
theorem lineWord_testBit (ext : Bus) (r i : Nat) (hi : i < 32) :
    (lineWord ext r).testBit i =
      if i = 3 then (r.testBit 0 && !ext.scl_held_low)
      else if i = 4 then (r.testBit 1 && !ext.sda_held_low)
      else r.testBit i := by
  have e3 : I2C_SCL_IN = 2 ^ 3 := rfl
  have e4 : I2C_SDA_IN = 2 ^ 4 := rfl
  have o0 : I2C_SCL_OUT = 2 ^ 0 := rfl
  have o1 : I2C_SDA_OUT = 2 ^ 1 := rfl
  unfold lineWord
  rw [e3, e4, o0, o1, decide_and_two_pow, decide_and_two_pow, Nat.testBit_or, Nat.testBit_or,
    Nat.testBit_and, Nat.testBit_and, not32_two_pow_testBit 3 i (by decide),
    not32_two_pow_testBit 4 i (by decide), Nat.testBit_mod_two_pow, testBit_ite_two_pow,
    testBit_ite_two_pow]
  by_cases h3 : i = 3
  · subst h3; simp
  · by_cases h4 : i = 4
    · subst h4; simp
    · have n3 : ¬ 3 = i := fun e => h3 e.symm
      have n4 : ¬ 4 = i := fun e => h4 e.symm
      simp [hi, h3, h4, n3, n4]

theorem lineWord_testBit_three (ext : Bus) (r : Nat) :
    (lineWord ext r).testBit 3 = (r.testBit 0 && !ext.scl_held_low) := by
  rw [lineWord_testBit ext r 3 (by decide)]; simp

theorem lineWord_testBit_four (ext : Bus) (r : Nat) :
    (lineWord ext r).testBit 4 = (r.testBit 1 && !ext.sda_held_low) := by
  rw [lineWord_testBit ext r 4 (by decide)]; simp

/-- The pins leave the output bits of the word alone. -/
theorem lineWord_testBit_out (ext : Bus) (r i : Nat) (hi : i < 3) :
    (lineWord ext r).testBit i = r.testBit i := by
  rw [lineWord_testBit ext r i (by omega), if_neg (by omega), if_neg (by omega)]

theorem lineLevels_reg (ext : Bus) (s : State) :
    (lineLevels ext s).reg = lineWord ext s.reg := by
  simp [lineLevels, State.reg]

/-- The clock getter on a register whose inputs show the line levels. -/
theorem getscl_lineLevels (ext : Bus) (s : State) :
    (bit_savi2c_getscl (lineLevels ext s)).1 =
      if (s.reg.testBit 0 && !ext.scl_held_low) = true then 1 else 0 := by
  rw [getscl_val, lineLevels_reg, lineWord_testBit_three]

/-- The data getter on a register whose inputs show the line levels. -/
theorem getsda_lineLevels (ext : Bus) (s : State) :
    (bit_savi2c_getsda (lineLevels ext s)).1 =
      if (s.reg.testBit 1 && !ext.sda_held_low) = true then 1 else 0 := by
  rw [getsda_val, lineLevels_reg, lineWord_testBit_four]

/-- C8, as code and pins have it: a setter writes the input bits 3 and 4 back as
read, and what a getter returns after a setter call is the level of the line, not a
stored bit.  After `bit_savi2c_setscl val` the clock getter returns 1 exactly when
`val` is non-zero and nothing else holds the clock low, and likewise for data; a
setter of one line does not change what the getter of the other line returns.  So
releasing never forces a high: when the clock is held low, `setscl(1)` followed by
`getscl` returns 0. -/
theorem getters_read_line_after_setters (ext : Bus) (s : State) (val : Int) :
    ((bit_savi2c_setscl val s).reg.testBit 3 = s.reg.testBit 3 ∧
      (bit_savi2c_setscl val s).reg.testBit 4 = s.reg.testBit 4 ∧
      (bit_savi2c_setsda val s).reg.testBit 3 = s.reg.testBit 3 ∧
      (bit_savi2c_setsda val s).reg.testBit 4 = s.reg.testBit 4) ∧
    (bit_savi2c_getscl (lineLevels ext (bit_savi2c_setscl val s))).1
      = (if val ≠ 0 ∧ ext.scl_held_low = false then 1 else 0) ∧
    (bit_savi2c_getsda (lineLevels ext (bit_savi2c_setsda val s))).1
      = (if val ≠ 0 ∧ ext.sda_held_low = false then 1 else 0) ∧
    (bit_savi2c_getscl (lineLevels ext (bit_savi2c_setsda val (lineLevels ext s)))).1
      = (bit_savi2c_getscl (lineLevels ext s)).1 ∧
    (bit_savi2c_getsda (lineLevels ext (bit_savi2c_setscl val (lineLevels ext s)))).1
      = (bit_savi2c_getsda (lineLevels ext s)).1 ∧
    (ext.scl_held_low = true →
      (bit_savi2c_getscl (lineLevels ext (bit_savi2c_setscl 1 s))).1 = 0) := by
  refine ⟨⟨?_, ?_, ?_, ?_⟩, ?_, ?_, ?_, ?_, ?_⟩
  · rw [setscl_testBit val s 3 (by decide)]; simp
  · rw [setscl_testBit val s 4 (by decide)]; simp
  · rw [setsda_testBit val s 3 (by decide)]; simp
  · rw [setsda_testBit val s 4 (by decide)]; simp
  · rw [getscl_lineLevels, setscl_testBit val s 0 (by decide)]
    by_cases hv : val = 0 <;> cases hx : ext.scl_held_low <;> simp [hv]
  · rw [getsda_lineLevels, setsda_testBit val s 1 (by decide)]
    by_cases hv : val = 0 <;> cases hx : ext.sda_held_low <;> simp [hv]
  · rw [getscl_lineLevels, getscl_lineLevels, setsda_testBit val _ 0 (by decide),
      lineLevels_reg, lineWord_testBit_out ext s.reg 0 (by decide)]
    simp
  · rw [getsda_lineLevels, getsda_lineLevels, setscl_testBit val _ 1 (by decide),
      lineLevels_reg, lineWord_testBit_out ext s.reg 1 (by decide)]
    simp
  · intro hx
    rw [getscl_lineLevels, hx]
    simp

/-- C8 amended, after a concrete attach with the clock held low by another device:
the released clock reads 0. -/
theorem getters_read_line_after_setters_witness :
    (Bus.mk true false).scl_held_low = true ∧
    (bit_savi2c_getscl (lineLevels (Bus.mk true false)
      (bit_savi2c_setscl 1
        (config_s4 (constEnv 0x1000 0) savage4_dev (stateWith 0 0))))).1 = 0 :=
  ⟨rfl,
    (getters_read_line_after_setters (Bus.mk true false)
      (config_s4 (constEnv 0x1000 0) savage4_dev (stateWith 0 0)) 1).2.2.2.2.2 rfl⟩

/-- C8 as stated fails: after attach, with nothing else on the bus holding a line,
the released clock reads 1; `bit_savi2c_setscl 0` then drives it low and the clock
getter returns 0, not the 1 it returned before the call. -/
theorem getscl_after_setscl_counterexample :
    (bit_savi2c_getscl (lineLevels (Bus.mk false false)
      (bit_savi2c_setscl 1
        (config_s4 (constEnv 0x1000 0) savage4_dev (stateWith 0 0))))).1 = 1 ∧
    (bit_savi2c_getscl (lineLevels (Bus.mk false false)
      (bit_savi2c_setscl 0 (lineLevels (Bus.mk false false)
        (bit_savi2c_setscl 1
          (config_s4 (constEnv 0x1000 0) savage4_dev (stateWith 0 0))))))).1 = 0 ∧
    (bit_savi2c_getscl (lineLevels (Bus.mk false false)
      (bit_savi2c_setscl 0 (lineLevels (Bus.mk false false)
        (bit_savi2c_setscl 1
          (config_s4 (constEnv 0x1000 0) savage4_dev (stateWith 0 0))))))).1
      ≠ (bit_savi2c_getscl (lineLevels (Bus.mk false false)
        (bit_savi2c_setscl 1
          (config_s4 (constEnv 0x1000 0) savage4_dev (stateWith 0 0))))).1 := by
  decide

/-! ## Sequences of setter calls -/

/-- C10: last write wins per line.  For every 32-bit register value and every finite
sequence of callbacks, the final register is a 32-bit value whose bit 0 is the
non-zero-ness of the level of the last `setscl` of the sequence (bit 0 of the old
value if there is none), whose bit 1 is likewise given by the last `setsda`, and
whose other bits are those of the old value.  Each setter is idempotent and the two
setters commute. -/
theorem last_write_wins (s : State) (ops : List LineOp) (hV : s.reg < 2 ^ 32) :
    (runOps ops s).reg < 2 ^ 32 ∧
    (∀ i, (runOps ops s).reg.testBit i =
      if i = 0 then
        (match lastScl ops with
          | some v => decide (v ≠ 0)
          | none => s.reg.testBit 0)
      else if i = 1 then
        (match lastSda ops with
          | some v => decide (v ≠ 0)
          | none => s.reg.testBit 1)
      else s.reg.testBit i) ∧
    (∀ v, (bit_savi2c_setscl v (bit_savi2c_setscl v s)).reg = (bit_savi2c_setscl v s).reg) ∧
    (∀ v, (bit_savi2c_setsda v (bit_savi2c_setsda v s)).reg = (bit_savi2c_setsda v s).reg) ∧
    (∀ a b, (bit_savi2c_setscl a (bit_savi2c_setsda b s)).reg
      = (bit_savi2c_setsda b (bit_savi2c_setscl a s)).reg) := by
  have hlt := runOps_reg_lt ops s hV
  have big : ∀ (t : State), t.reg < 2 ^ 32 → ∀ i, 32 ≤ i → t.reg.testBit i = false :=
    fun t ht i hi => testBit_mod32 t.reg i ht hi
  have lt1 : ∀ v (t : State), (bit_savi2c_setscl v t).reg < 2 ^ 32 := fun v t => by
    rw [setscl_reg]; exact Nat.mod_lt _ (by decide)
  have lt2 : ∀ v (t : State), (bit_savi2c_setsda v t).reg < 2 ^ 32 := fun v t => by
    rw [setsda_reg]; exact Nat.mod_lt _ (by decide)
  refine ⟨hlt, ?_, ?_, ?_, ?_⟩
  · intro i
    by_cases h0 : i = 0
    · subst h0; rw [if_pos rfl]; exact runOps_testBit_zero ops s
    · by_cases h1 : i = 1
      · subst h1; rw [if_neg h0, if_pos rfl]; exact runOps_testBit_one ops s
      · rw [if_neg h0, if_neg h1]
        by_cases hi : i < 32
        · exact runOps_testBit_frame ops s i hi h0 h1
        · rw [big _ hlt i (by omega), big s hV i (by omega)]
  · intro v
    apply Nat.eq_of_testBit_eq
    intro i
    by_cases hi : i < 32
    · rw [setscl_testBit v _ i hi, setscl_testBit v s i hi]
      split <;> rfl
    · rw [big _ (lt1 v _) i (by omega), big _ (lt1 v s) i (by omega)]
  · intro v
    apply Nat.eq_of_testBit_eq
    intro i
    by_cases hi : i < 32
    · rw [setsda_testBit v _ i hi, setsda_testBit v s i hi]
      split <;> rfl
    · rw [big _ (lt2 v _) i (by omega), big _ (lt2 v s) i (by omega)]
  · intro a b
    apply Nat.eq_of_testBit_eq
    intro i
    by_cases hi : i < 32
    · rw [setscl_testBit a (bit_savi2c_setsda b s) i hi, setsda_testBit b s i hi,
        setsda_testBit b (bit_savi2c_setscl a s) i hi, setscl_testBit a s i hi]
      by_cases h0 : i = 0
      · subst h0; simp
      · simp [h0]
    · rw [big _ (lt1 a _) i (by omega), big _ (lt2 b _) i (by omega)]

/-- C10 on a concrete run from `0x2C`: clock low, data high, clock high, data low
ends with clock bit set, data bit clear: `0x2D`. -/
theorem last_write_wins_witness :
    (stateWith 0x1000 0x2C).reg < 2 ^ 32 ∧
    (runOps [.setscl 0, .setsda 1, .setscl 7, .setsda 0] (stateWith 0x1000 0x2C)).reg = 0x2D ∧
    (runOps [.setscl 0, .setsda 1, .setscl 7, .setsda 0] (stateWith 0x1000 0x2C)).reg < 2 ^ 32 :=
  ⟨by decide, by decide,
    (last_write_wins (stateWith 0x1000 0x2C) [.setscl 0, .setsda 1, .setscl 7, .setsda 0]
      (by decide)).1⟩

/-! ## Attach through `savage4_probe` -/

/-- C4 at a failing input: the mapping of a Savage4 fails (`ioremap_nocache` yields 0)
and `i2c_bit_add_bus` would succeed.  `config_s4` leaves `ioaddr = 0` and makes no
register access, yet `savage4_probe` calls `i2c_bit_add_bus` and returns its result 0,
a success: a bus is registered over a null mapping. -/
theorem savage4_probe_failed_mapping_registers_bus :
    (config_s4 (constEnv 0 0) savage4_dev (stateWith 0 0)).ioaddr = 0 ∧
    regAccesses (savage4_probe (constEnv 0 0) savage4_dev savage4_id (stateWith 0 0)).2.trace = [] ∧
    (savage4_probe (constEnv 0 0) savage4_dev savage4_id (stateWith 0 0)).1 = 0 ∧
    ¬ (savage4_probe (constEnv 0 0) savage4_dev savage4_id (stateWith 0 0)).1 < 0 ∧
    (savage4_probe (constEnv 0 0) savage4_dev savage4_id (stateWith 0 0)).2.trace
      = [Event.ioremap_nocache 0xE0000000 0x0080000, Event.i2c_bit_add_bus] ∧
    (i2c_savage4_init (constEnv 0 0) [savage4_dev] (stateWith 0 0)).1 = 0 := by
  decide

/-- C5, as the code has it: `savage4_probe` makes no re-attach check.  In a state in
which a mapping is already held, when the new mapping succeeds, the probe calls
`i2c_bit_add_bus` once, as its last call, and returns the result of that call; it
fails exactly when `i2c_bit_add_bus` fails, and its result and its calls are those
of the same probe from a state that holds no mapping.  (What becomes of the
mapping held before is not part of this statement.) -/
theorem savage4_probe_no_reattach_check (env : Env) (dev : PciDev) (id : PciDeviceId)
    (s : State) (hheld : s.ioaddr ≠ 0) (hmap : (config_s4 env dev s).ioaddr ≠ 0) :
    (savage4_probe env dev id s).1 = env.i2c_bit_add_bus (config_s4 env dev s).trace ∧
    (savage4_probe env dev id s).2.trace
      = (config_s4 env dev s).trace ++ [Event.i2c_bit_add_bus] ∧
    (config_s4 env dev s).trace.count Event.i2c_bit_add_bus
      = s.trace.count Event.i2c_bit_add_bus ∧
    ((savage4_probe env dev id s).1 < 0 ↔
      env.i2c_bit_add_bus (config_s4 env dev s).trace < 0) ∧
    (savage4_probe env dev id { s with ioaddr := 0 }).1 = (savage4_probe env dev id s).1 ∧
    (savage4_probe env dev id { s with ioaddr := 0 }).2.trace
      = (savage4_probe env dev id s).2.trace := by
  have h : config_s4 env dev { s with ioaddr := 0 } = config_s4 env dev s := by
    unfold config_s4
    dsimp only
  have _ := hheld
  refine ⟨rfl, rfl, ?_, Iff.rfl, ?_, ?_⟩
  · rw [(config_s4_ok env dev s hmap).2]
    simp [List.count_append, List.count_cons]
  · simp only [savage4_probe, h]
  · simp only [savage4_probe, h]

/-- C5 amended, on the run of `i2c_savage4_init` over a Savage4 and a Savage2000 in
which the first bus registration fails: the second probe starts with the mapping of
the first still held, and returns the result of its own bus registration, 0. -/
theorem savage4_probe_no_reattach_check_witness :
    (i2c_savage4_init reattachEnv [savage4_dev] (stateWith 0 0)).2.ioaddr ≠ 0 ∧
    (config_s4 reattachEnv savage2000_dev
      (i2c_savage4_init reattachEnv [savage4_dev] (stateWith 0 0)).2).ioaddr ≠ 0 ∧
    (savage4_probe reattachEnv savage2000_dev savage2000_id
      (i2c_savage4_init reattachEnv [savage4_dev] (stateWith 0 0)).2).1
      = reattachEnv.i2c_bit_add_bus
          (config_s4 reattachEnv savage2000_dev
            (i2c_savage4_init reattachEnv [savage4_dev] (stateWith 0 0)).2).trace ∧
    (savage4_probe reattachEnv savage2000_dev savage2000_id
      (i2c_savage4_init reattachEnv [savage4_dev] (stateWith 0 0)).2).1 = 0 :=
  ⟨by decide, by decide,
    (savage4_probe_no_reattach_check reattachEnv savage2000_dev savage2000_id
      (i2c_savage4_init reattachEnv [savage4_dev] (stateWith 0 0)).2
      (by decide) (by decide)).1,
    by decide⟩

/-- C5 as stated fails, on a state the driver reaches: `i2c_savage4_init` probes a
Savage4, maps it at `0x1000`, and its bus registration fails, so the loop goes on
with the mapping held.  The probe of the Savage2000 that follows is not rejected:
it returns 0, `ioaddr` is `0x2000` instead of `0x1000`, and `i2c_bit_add_bus` has
been called a second time. -/
theorem savage4_probe_reattach_counterexample :
    (i2c_savage4_init reattachEnv [savage4_dev] (stateWith 0 0)).1 = -ENODEV ∧
    (i2c_savage4_init reattachEnv [savage4_dev] (stateWith 0 0)).2.ioaddr = 0x1000 ∧
    (i2c_savage4_init reattachEnv [savage4_dev] (stateWith 0 0)).2.trace
      = [Event.printk_version, Event.ioremap_nocache 0xE0000000 0x0080000,
         Event.writel 0x20 (0x1000 + REG), Event.printk_using 0x1000,
         Event.i2c_bit_add_bus] ∧
    (savage4_probe reattachEnv savage2000_dev savage2000_id
      (i2c_savage4_init reattachEnv [savage4_dev] (stateWith 0 0)).2).1 = 0 ∧
    ¬ (savage4_probe reattachEnv savage2000_dev savage2000_id
      (i2c_savage4_init reattachEnv [savage4_dev] (stateWith 0 0)).2).1 < 0 ∧
    (savage4_probe reattachEnv savage2000_dev savage2000_id
      (i2c_savage4_init reattachEnv [savage4_dev] (stateWith 0 0)).2).2.ioaddr = 0x2000 ∧
    (savage4_probe reattachEnv savage2000_dev savage2000_id
      (i2c_savage4_init reattachEnv [savage4_dev] (stateWith 0 0)).2).2.ioaddr
      ≠ (i2c_savage4_init reattachEnv [savage4_dev] (stateWith 0 0)).2.ioaddr ∧
    (savage4_probe reattachEnv savage2000_dev savage2000_id
      (i2c_savage4_init reattachEnv [savage4_dev] (stateWith 0 0)).2).2.trace.count
        Event.i2c_bit_add_bus = 2 ∧
    (i2c_savage4_init reattachEnv [savage4_dev, savage2000_dev] (stateWith 0 0)).1 = 0 ∧
    (i2c_savage4_init reattachEnv [savage4_dev, savage2000_dev] (stateWith 0 0)).2.ioaddr
      = 0x2000 := by
  decide

/-! ## Discovery -/

/-- C9: the result of `i2c_savage4_init` over the list of PCI devices.  It is 0 or
`-ENODEV`.  It is 0 exactly when the list splits at a device that matches the ID
table, none of the devices before it was attached, and `savage4_probe` on it
returns a non-negative result; the final state is then the one that probe left, so
no later device is probed.  When no device matches, the result is `-ENODEV` and
the only call made is the version `printk`: no mapping, no bus registration.  A
device matches exactly when its vendor is S3 and its device id is `0x8A22` or
`0x9102`, whatever its subordinate ids and class. -/
theorem i2c_savage4_init_result (env : Env) (devs : List PciDev) (s : State) :
    ((i2c_savage4_init env devs s).1 = 0 ∨ (i2c_savage4_init env devs s).1 = -ENODEV) ∧
    ((i2c_savage4_init env devs s).1 = 0 →
      ∃ pre d post id, devs = pre ++ d :: post ∧
        pci_match_device savage4_ids d = some id ∧
        (i2c_savage4_init env pre s).1 = -ENODEV ∧
        0 ≤ (savage4_probe env d id (i2c_savage4_init env pre s).2).1 ∧
        (i2c_savage4_init env devs s).2
          = (savage4_probe env d id (i2c_savage4_init env pre s).2).2) ∧
    (∀ pre d post id, devs = pre ++ d :: post →
      pci_match_device savage4_ids d = some id →
      (i2c_savage4_init env pre s).1 = -ENODEV →
      0 ≤ (savage4_probe env d id (i2c_savage4_init env pre s).2).1 →
      (i2c_savage4_init env devs s).1 = 0 ∧
      (i2c_savage4_init env devs s).2
        = (savage4_probe env d id (i2c_savage4_init env pre s).2).2) ∧
    ((∀ d ∈ devs, pci_match_device savage4_ids d = none) →
      (i2c_savage4_init env devs s).1 = -ENODEV ∧
      (i2c_savage4_init env devs s).2.ioaddr = s.ioaddr ∧
      (i2c_savage4_init env devs s).2.mem = s.mem ∧
      (i2c_savage4_init env devs s).2.trace = s.trace ++ [Event.printk_version]) ∧
    (∀ d : PciDev, (pci_match_device savage4_ids d).isSome = true ↔
      d.vendor = 0x5333 ∧ (d.device = 0x8A22 ∨ d.device = 0x9102)) := by
  refine ⟨loop_dichotomy env devs _, loop_zero_split env devs _, ?_, ?_,
    pci_match_device_savage4_ids⟩
  · intro pre d post id hd hm hpre hp
    unfold i2c_savage4_init at hpre hp ⊢
    rw [hd, loop_append_of_fail env pre (d :: post) _ hpre, loop_cons_ok env d post _ id hm hp]
    exact ⟨rfl, rfl⟩
  · intro h
    unfold i2c_savage4_init
    rw [loop_no_match env devs _ h]
    exact ⟨rfl, rfl, rfl, rfl⟩

/-- C9 on concrete device lists: with a foreign device, a Savage4 and a Savage2000
listed, the Savage4 is attached and the Savage2000 is never probed; with only the
foreign device listed the result is `-ENODEV` and nothing but the `printk` happens. -/
theorem i2c_savage4_init_result_witness :
    (pci_match_device savage4_ids savage4_dev = some savage4_id ∧
      (i2c_savage4_init (constEnv 0x1000 0) [other_dev] (stateWith 0 0)).1 = -ENODEV ∧
      0 ≤ (savage4_probe (constEnv 0x1000 0) savage4_dev savage4_id
        (i2c_savage4_init (constEnv 0x1000 0) [other_dev] (stateWith 0 0)).2).1 ∧
      (i2c_savage4_init (constEnv 0x1000 0) [other_dev, savage4_dev, savage2000_dev]
        (stateWith 0 0)).1 = 0 ∧
      (i2c_savage4_init (constEnv 0x1000 0) [other_dev, savage4_dev, savage2000_dev]
        (stateWith 0 0)).2.trace =
        [Event.printk_version, Event.ioremap_nocache 0xE0000000 0x0080000,
         Event.writel 0x20 (0x1000 + REG), Event.printk_using 0x1000, Event.i2c_bit_add_bus]) ∧
    ((∀ d ∈ [other_dev], pci_match_device savage4_ids d = none) ∧
      (i2c_savage4_init (constEnv 0x1000 0) [other_dev] (stateWith 0 0)).1 = -ENODEV ∧
      (i2c_savage4_init (constEnv 0x1000 0) [other_dev] (stateWith 0 0)).2.trace
        = (stateWith 0 0).trace ++ [Event.printk_version]) :=
  ⟨⟨by decide, by decide, by decide,
      ((i2c_savage4_init_result (constEnv 0x1000 0) [other_dev, savage4_dev, savage2000_dev]
        (stateWith 0 0)).2.2.1 [other_dev] savage4_dev [savage2000_dev] savage4_id rfl
        (by decide) (by decide) (by decide)).1,
      by decide⟩,
    ⟨by decide,
      ((i2c_savage4_init_result (constEnv 0x1000 0) [other_dev] (stateWith 0 0)).2.2.2.1
        (by decide)).1,
      ((i2c_savage4_init_result (constEnv 0x1000 0) [other_dev] (stateWith 0 0)).2.2.2.1
        (by decide)).2.2.2⟩⟩

end Savage4
